import Mathlib

/-!
# A verified model of `download_recordings.py`

This file gives a shallow embedding, in Lean 4, of the recording-download
script `src/download_recordings.py`, and proves (or refutes) the behavioural
claims made about it.  Strings are modelled as `List Char`; the HTTP layer is
modelled by passing response values in explicitly and recording the requests
the code would issue as an explicit list of effects; Python exceptions are
modelled with `Except`.

Conventions used throughout:
* each Lean definition keeps the name of the Python function it embeds;
* the character-level primitives of the Python standard library
  (`str.lower`, the regex classes `\w` and `\s`, `unicodedata.normalize`)
  are modelled exactly on the ASCII range, and additionally on the three
  Hangul code points U+1100, U+1161 and U+AC00, which are the only
  non-ASCII code points this development reasons about.
-/

/-! ## Character primitives -/

/-- Models the Python regex class `\s` (the ASCII whitespace characters;
Python's `\s` additionally matches non-ASCII spaces, which this model does
not cover). -/
def pyIsSpace (c : Char) : Bool :=
  c = ' ' || c = '\t' || c = '\n' || c = '\x0d' || c = '\x0b' || c = '\x0c'

/-- The three Hangul code points this development reasons about: the
conjoining jamo ᄀ (U+1100) and ᅡ (U+1161) and the precomposed syllable
가 (U+AC00).  All three are alphabetic in Unicode, hence matched by
Python's `\w`. -/
def isHangulOfModel (c : Char) : Bool :=
  c = 'ᄀ' || c = 'ᅡ' || c = '가'

/-- Models the Python regex class `\w` under `re.UNICODE` (the default for
`str` patterns): ASCII alphanumerics, the underscore, and — of the non-ASCII
alphanumerics Python also matches — the three Hangul code points named
above. -/
def pyIsWordChar (c : Char) : Bool :=
  c.isAlphanum || c = '_' || isHangulOfModel c

/-- An ASCII uppercase letter (`A`–`Z`). -/
def isAsciiUpper (c : Char) : Bool :=
  decide (65 ≤ c.toNat ∧ c.toNat ≤ 90)

/-- Models Python `str.lower` on the ASCII range: an ASCII uppercase letter
is shifted down into `a`–`z`; every other code point is left unchanged.
(The Hangul code points above have no case, so Python's `lower` also fixes
them.) -/
def pyLower (c : Char) : Char :=
  if 65 ≤ c.toNat ∧ c.toNat ≤ 90 then Char.ofNat (c.toNat + 32) else c

/-- A character stripped by `str.strip('-_')` in `slugify`. -/
def isStripChar (c : Char) : Bool :=
  c = '-' || c = '_'

/-- A character matched by the regex class `[-\s]` in `slugify`. -/
def isDashSpace (c : Char) : Bool :=
  c = '-' || pyIsSpace c

/-- A character kept by `re.sub(r'[^\w\s-]', '', ·)`: word characters,
whitespace and dashes survive, everything else is deleted. -/
def keepChar (c : Char) : Bool :=
  pyIsWordChar c || pyIsSpace c || c = '-'

/-! ## `unicodedata.normalize('NFKC', ·)` -/

/-- Models `unicodedata.normalize('NFKC', value)` as used by `slugify`
(with `allow_unicode=True`, the script's only call form).  NFKC is the
identity on ASCII text; of its non-trivial mappings this development needs
only the canonical Hangul composition `L + V → LV` of the Unicode standard:
the jamo pair U+1100 U+1161 composes to the syllable U+AC00.  Every other
character is passed through unchanged. -/
def nfkcModel : List Char → List Char
  | [] => []
  | [c] => [c]
  | a :: b :: rest =>
    if a = 'ᄀ' ∧ b = 'ᅡ' then '가' :: nfkcModel rest
    else a :: nfkcModel (b :: rest)

/-! ## List-level pieces of `slugify` -/

/-- Models `value.lower()` as `l.map pyLower`. -/
def mapLower (l : List Char) : List Char :=
  l.map pyLower

/-- Models `re.sub(r'[^\w\s-]', '', ·)`: delete every character that is not
a word character, whitespace or dash. -/
def filterKeep (l : List Char) : List Char :=
  l.filter keepChar

/-- Scanner for `re.sub(r'[-\s]+', '-', ·)`.  The flag records whether the
scanner is inside a run of dashes/whitespace: the first character of a run
emits a single dash, the rest of the run emits nothing. -/
def collapseAux (inRun : Bool) : List Char → List Char
  | [] => []
  | c :: rest =>
    if isDashSpace c then
      if inRun then collapseAux true rest else '-' :: collapseAux true rest
    else c :: collapseAux false rest

/-- Models `re.sub(r'[-\s]+', '-', ·)`: every maximal run of dashes and
whitespace is replaced by a single dash. -/
def collapseRuns (l : List Char) : List Char :=
  collapseAux false l

/-- Removes the maximal run of `p`-characters at the end of the list.
Together with a leading `dropWhile` this models Python's two-sided
`str.strip`. -/
def dropTrailing (p : Char → Bool) : List Char → List Char
  | [] => []
  | a :: rest =>
    let r := dropTrailing p rest
    if r.isEmpty then (if p a then [] else [a]) else a :: r

/-- Models `str.strip('-_')`: remove leading and trailing dashes and
underscores. -/
def pyStrip (l : List Char) : List Char :=
  dropTrailing isStripChar (l.dropWhile isStripChar)

/-- Models `str.strip()` (no argument): remove leading and trailing
whitespace. -/
def pyStripWs (l : List Char) : List Char :=
  dropTrailing pyIsSpace (l.dropWhile pyIsSpace)

/-- The function `slugify(value, allow_unicode=True)`, lines 213–227 of the script
(the script always calls it with the default `allow_unicode=True`):
NFKC-normalize, lowercase, delete characters outside `[\w\s-]`, collapse
runs of dashes and whitespace to single dashes, and strip leading and
trailing dashes and underscores. -/
def slugify (value : List Char) : List Char :=
  pyStrip (collapseRuns (filterKeep (mapLower (nfkcModel value))))

/-- Holds (as `true`) iff the list never contains two adjacent dashes. -/
def noDoubleDash : List Char → Bool
  | [] => true
  | [_] => true
  | a :: b :: rest => !(a = '-' && b = '-') && noDoubleDash (b :: rest)

/-- The head of the list, when present, is not a stripped character. -/
def headOk (l : List Char) : Bool :=
  match l with
  | [] => true
  | c :: _ => !isStripChar c

/-- The last element of the list, when present, is not a stripped
character. -/
def lastOk (l : List Char) : Bool :=
  match l.getLast? with
  | none => true
  | some c => !isStripChar c

/-! ## `str.replace` -/

/-- Holds (as `true`) iff the first list is an initial segment of the second list. -/
def listStartsWith : List Char → List Char → Bool
  | [], _ => true
  | _ :: _, [] => false
  | a :: as, b :: bs => a = b && listStartsWith (a :: as).tail (b :: bs).tail

/-- Left-to-right scan of `str.replace(o :: old, '')`: wherever the pattern
matches, its characters are dropped and the scan resumes after the match
(Python replaces non-overlapping occurrences left to right).  The `fuel`
argument makes the recursion structural; every step consumes at least one
character, so starting the fuel at the length of the list the zero-fuel
branch is never taken. -/
def replaceGo (o : Char) (old : List Char) : Nat → List Char → List Char
  | _, [] => []
  | 0, l => l
  | fuel + 1, a :: rest =>
    if a = o && listStartsWith old rest then replaceGo o old fuel (rest.drop old.length)
    else a :: replaceGo o old fuel rest

/-- Models `s.replace(old, '')` — remove every occurrence of `old` from
`s`.  (With an empty pattern and empty replacement Python returns `s`
unchanged.) -/
def replaceRemove (s old : List Char) : List Char :=
  match old with
  | [] => s
  | o :: old => replaceGo o old s.length s

/-! ## Dates: `datetime.strptime` / `strftime` -/

/-- The six fields of a parsed `datetime`. -/
structure PyDateTime where
  year : Nat
  month : Nat
  day : Nat
  hour : Nat
  minute : Nat
  second : Nat
deriving DecidableEq

/-- Numeric value of a list of decimal digit characters. -/
def valOfDigits (ds : List Char) : Nat :=
  ds.foldl (fun a c => a * 10 + (c.toNat - 48)) 0

/-- Reads the maximal run of decimal digits, of length `1..maxLen`, at the
head of the list.  This is how `strptime`'s numeric directives behave when,
as in the format `'%Y-%m-%d %H:%M:%S'`, each directive is followed by a
non-digit literal (or the end of the input): a longer run cannot be split
with the following literal, so the whole run must belong to the field. -/
def parseRun (maxLen : Nat) (l : List Char) : Option (Nat × List Char) :=
  match l.span Char.isDigit with
  | (ds, rest) =>
    if ds = [] ∨ maxLen < ds.length then none else some (valOfDigits ds, rest)

/-- Reads exactly four decimal digits (the `%Y` directive of `_strptime`
matches `\d\d\d\d`). -/
def parseYear4 (l : List Char) : Option (Nat × List Char) :=
  match l.span Char.isDigit with
  | (ds, rest) => if ds.length = 4 then some (valOfDigits ds, rest) else none

/-- Consumes one expected literal character. -/
def expectChar (c : Char) : List Char → Option (List Char)
  | [] => none
  | x :: rest => if x = c then some rest else none

/-- Gregorian leap year, as implemented by `datetime`. -/
def isLeap (y : Nat) : Bool :=
  (y % 4 = 0 && y % 100 ≠ 0) || y % 400 = 0

/-- Number of days of month `m` of year `y`, as validated by the
`datetime` constructor. -/
def daysInMonth (y m : Nat) : Nat :=
  if m = 2 then (if isLeap y then 29 else 28)
  else if m = 4 ∨ m = 6 ∨ m = 9 ∨ m = 11 then 30
  else 31

/-- Models `datetime.datetime.strptime(s, '%Y-%m-%d %H:%M:%S')` (line 92 of the
script): four-digit year, then `-`, month, `-`, day, space, hour, `:`,
minute, `:`, second, with nothing left over; the field ranges are the ones
`_strptime`'s regex and the `datetime` constructor accept.  `none` models
the `ValueError` Python raises on any mismatch. -/
def strptimeReport (s : List Char) : Option PyDateTime := do
  let (y, s) ← parseYear4 s
  let s ← expectChar '-' s
  let (m, s) ← parseRun 2 s
  let s ← expectChar '-' s
  let (d, s) ← parseRun 2 s
  let s ← expectChar ' ' s
  let (hh, s) ← parseRun 2 s
  let s ← expectChar ':' s
  let (mi, s) ← parseRun 2 s
  let s ← expectChar ':' s
  let (ss, s) ← parseRun 2 s
  if s = [] ∧ 1 ≤ y ∧ 1 ≤ m ∧ m ≤ 12 ∧ 1 ≤ d ∧ d ≤ daysInMonth y m ∧
      hh ≤ 23 ∧ mi ≤ 59 ∧ ss ≤ 59 then
    some ⟨y, m, d, hh, mi, ss⟩
  else none

/-- Decimal rendering of `n` zero-padded to two digits (`strftime`'s
`%m`, `%d`, `%H`, `%M`). -/
def pad2 (n : Nat) : List Char :=
  if n < 10 then '0' :: (Nat.repr n).toList else (Nat.repr n).toList

/-- Decimal rendering of `n` zero-padded to four digits (`strftime`'s
`%Y`; the report format only parses four-digit years, on which all
platforms agree). -/
def pad4 (n : Nat) : List Char :=
  if n < 10 then '0' :: '0' :: '0' :: (Nat.repr n).toList
  else if n < 100 then '0' :: '0' :: (Nat.repr n).toList
  else if n < 1000 then '0' :: (Nat.repr n).toList
  else (Nat.repr n).toList

/-- Models `datetime_obj.strftime("%Y%m%d_%H%M")` (line 93 of the script). -/
def fmtCreated (dt : PyDateTime) : List Char :=
  pad4 dt.year ++ pad2 dt.month ++ pad2 dt.day ++ ['_'] ++ pad2 dt.hour ++ pad2 dt.minute

/-! ## Report rows, filenames, directories -/

/-- One row of the recording report: the recognized columns, as produced
by `csv.DictReader`. -/
structure Row where
  SessionOwner : List Char
  RecordingLink : List Char
  ContextIdentifier : List Char
  RecordingCreated : List Char
  SessionName : List Char
  RecordingName : List Char
deriving DecidableEq

/-- The Python exceptions this model distinguishes. -/
inductive PyError
  /-- A missing dictionary key (`oAuth["token"]` after a failed mint). -/
  | keyError
  /-- Raised by `datetime.strptime` rejecting the `RecordingCreated` field. -/
  | valueError
  /-- Raised by `requests` from `raise_for_status()`. -/
  | httpError
deriving DecidableEq

/-- The function `filename_from_report(recording)`, lines 90–100 of the script: parse
`RecordingCreated`, render it as `%Y%m%d_%H%M`, join it with the slugified
session and recording names by underscores, truncate to 200 characters and
append `.mp4`.  A date the format rejects raises `ValueError`, modelled as
`Except.error`. -/
def filename_from_report (recording : Row) : Except PyError (List Char) :=
  match strptimeReport recording.RecordingCreated with
  | none => .error .valueError
  | some dt =>
    let created := fmtCreated dt
    let session := slugify recording.SessionName
    let recname := slugify recording.RecordingName
    let filename := created ++ ['_'] ++ session ++ ['_'] ++ recname
    let filename := filename.take 200
    .ok (filename ++ ".mp4".toList)

/-- The function `define_dir(root, folder)`, lines 103–111 of the script: slugify the
root; an empty folder (a recording without context/course) goes to the
fixed `_none` subdirectory, any other folder to its slugified form. -/
def define_dir (root folder : List Char) : List Char :=
  if folder = [] then slugify root ++ "/_none/".toList
  else slugify root ++ "/".toList ++ slugify folder

/-! ## Token manager and HTTP layer

Instants are modelled as integers (seconds).  The script stores the token
expiry by formatting `datetime.now() + expires_in` with
`'%Y/%m/%d %H:%M:%S.%f'` and later reparses it with the *same* format
(lines 190–191 and 202); that round-trip is exact, so the model stores the
instant itself.  HTTP responses are passed in through an `Env`; the
requests the script would issue are returned as an explicit `Effect`
list. -/

/-- The configuration read from `download_config.ini` (lines 40–44);
`RecordingReport` only names the input file and plays no part in the
modelled claims. -/
structure Config where
  region_host : List Char
  lti_key : List Char
  lti_secret : List Char
  download_path : List Char

/-- The JSON body and status of the token-mint POST response (the model
assumes the body is JSON, which line 182 of the script parses before
looking at the status). -/
structure MintResponse where
  status_code : Nat
  access_token : List Char
  expires_in : Int

/-- The JSON body and status of a resolver / download GET response. -/
structure ResolveResponse where
  status_code : Nat
  url : List Char

/-- The `oAuth` dictionary built by `get_token`: the three
configuration-derived entries are always present; `token` and
`token_expires` are present only after a successful mint (`none` models a
missing key). -/
structure OAuth where
  key : List Char
  secret : List Char
  endpoint : List Char
  token : Option (List Char)
  token_expires : Option Int
deriving DecidableEq

/-- One HTTP request or filesystem write the script performs, in program
order. -/
inductive Effect
  /-- The request `requests.post({endpoint}/token, ...)` — the mint call of
  `get_token`. -/
  | mintPost
  /-- The request `requests.get({endpoint}/recordings/{uid}/url?disposition=download)`
  — the resolver call of `get_download_url`, tagged by uid. -/
  | resolveGet (uid : List Char)
  /-- The bare `requests.get(download_url)` of line 138: not streamed, so
  the whole response body is read into memory and discarded. -/
  | downloadGet (url : List Char)
  /-- The request `requests.get(download_url, stream=True)` of line 140: the body is
  streamed to disk in chunks by `shutil.copyfileobj`. -/
  | downloadGetStream (url : List Char)
  /-- Opening and writing the destination file (the constant script
  directory prefixed by `os.path.join` is elided from the path). -/
  | writeFile (path : List Char)
deriving DecidableEq

/-- The environment a run executes against: the current instant and the
responses the three endpoints would return. -/
structure Env where
  now : Int
  mintResp : MintResponse
  resolveResp : List Char → ResolveResponse
  downloadStatus : List Char → Nat

/-- The function `get_token()`, lines 149–196 of the script: build the `oAuth`
dictionary, POST the JWT-bearer grant (the assertion-building is internal
to the request and not observable), and on HTTP 200 store the returned
bearer token and the absolute expiry instant `now + expires_in`.  On any
other status the script only prints the error and returns the dictionary
*without* `token` and `token_expires` entries. -/
def get_token (cfg : Config) (now : Int) (resp : MintResponse) : OAuth :=
  let oAuth : OAuth :=
    { key := cfg.lti_key
      secret := cfg.lti_secret
      endpoint := cfg.region_host ++ "/collab/api/csa".toList
      token := none
      token_expires := none }
  if resp.status_code = 200 then
    { oAuth with
        token := some resp.access_token
        token_expires := some (now + resp.expires_in) }
  else oAuth

/-- The function `is_token_exp(oAuth)`, lines 199–210 of the script: reparse the stored
expiry and compare it with `datetime.now()` using `<` — the token counts
as expired exactly when the stored instant is strictly before now.
Reading `oAuth["token_expires"]` raises a `KeyError` when the mint had
failed. -/
def is_token_exp (oAuth : OAuth) (now : Int) : Except PyError Bool :=
  match oAuth.token_expires with
  | none => .error .keyError
  | some exp => .ok (decide (exp < now))

/-- The function `get_download_url(recording_uid, oAuth)`, lines 114–132 of the script:
GET `{endpoint}/recordings/{uid}/url?disposition=download` with the bearer
token.  On HTTP 200 return the `url` field of the JSON body, on any other
status print a message and return the sentinel string `'FAILED'`.  Reading
`oAuth["token"]` raises a `KeyError` — before the request is issued —
when the mint had failed. -/
def get_download_url (recording_uid : List Char) (oAuth : OAuth) (env : Env) :
    List Effect × Except PyError (List Char) :=
  match oAuth.token with
  | none => ([], .error .keyError)
  | some _ =>
    let resp := env.resolveResp recording_uid
    ([.resolveGet recording_uid],
     if resp.status_code = 200 then .ok resp.url else .ok "FAILED".toList)

/-- The function `download_recording(download_url, download_filename, download_dir)`,
lines 135–146 of the script: a first, bare `requests.get(download_url)`
whose response is discarded; then the streaming GET, whose
`raise_for_status()` raises for status ≥ 400, and otherwise the directory
is created and the body streamed into `download_dir/download_filename`. -/
def download_recording (env : Env) (download_url download_filename download_dir : List Char) :
    List Effect × Except PyError Unit :=
  let st := env.downloadStatus download_url
  if 400 ≤ st then
    ([.downloadGet download_url, .downloadGetStream download_url], .error .httpError)
  else
    ([.downloadGet download_url, .downloadGetStream download_url,
      .writeFile (download_dir ++ "/".toList ++ download_filename)], .ok ())

/-! ## The per-row loop of `main` -/

/-- How one iteration of `main`'s loop ends. -/
inductive RowOutcome
  /-- The row's `SessionOwner` differs from the configured key: `continue`
  (line 62). -/
  | skippedOwner
  /-- The resolver returned the `'FAILED'` sentinel: `continue`
  (line 67). -/
  | skippedResolve
  /-- The file was written and the status line printed (line 74). -/
  | downloaded
  /-- An uncaught exception: the whole run aborts. -/
  | crashed (e : PyError)
deriving DecidableEq

/-- One iteration of the `for recording in recordingData` loop, lines
52–74 of the script: refresh the token if expired, derive the uid from
`RecordingLink`, skip rows not owned by the configured key, resolve the
download URL (skipping on the sentinel), build filename and directory, and
download.  Returns the effects issued during the iteration, the (possibly
replaced) token, and the outcome. -/
def process_row (cfg : Config) (env : Env) (oAuth₀ : OAuth) (row : Row) :
    List Effect × OAuth × RowOutcome :=
  match is_token_exp oAuth₀ env.now with
  | .error e => ([], oAuth₀, .crashed e)
  | .ok expired =>
    let mintEffs : List Effect := if expired then [.mintPost] else []
    let oAuth := if expired then get_token cfg env.now env.mintResp else oAuth₀
    let recording_uid :=
      replaceRemove row.RecordingLink (cfg.region_host ++ "/recording/".toList)
    if row.SessionOwner ≠ cfg.lti_key then
      (mintEffs, oAuth, .skippedOwner)
    else
      match get_download_url (pyStripWs recording_uid) oAuth env with
      | (resEffs, .error e) => (mintEffs ++ resEffs, oAuth, .crashed e)
      | (resEffs, .ok url) =>
        if url = "FAILED".toList then
          (mintEffs ++ resEffs, oAuth, .skippedResolve)
        else
          match filename_from_report row with
          | .error e => (mintEffs ++ resEffs, oAuth, .crashed e)
          | .ok filename =>
            let download_dir := define_dir cfg.download_path row.ContextIdentifier
            match download_recording env url filename download_dir with
            | (dlEffs, .error e) => (mintEffs ++ resEffs ++ dlEffs, oAuth, .crashed e)
            | (dlEffs, .ok _) => (mintEffs ++ resEffs ++ dlEffs, oAuth, .downloaded)

/-- The whole `for` loop of `main`: process the rows in order, threading
the token; an uncaught exception halts the loop (and the run), every other
outcome lets the loop continue with the next row.  Returns all effects in
program order and the per-row outcomes up to (and including) a crash. -/
def main_loop (cfg : Config) (env : Env) : OAuth → List Row → List Effect × List RowOutcome
  | _, [] => ([], [])
  | oAuth, row :: rest =>
    match process_row cfg env oAuth row with
    | (effs, _, .crashed e) => (effs, [.crashed e])
    | (effs, oAuth', out) =>
      let (effs', outs) := main_loop cfg env oAuth' rest
      (effs ++ effs', out :: outs)

/-! ## Concrete fixtures used by the witnesses and counterexamples -/

/-- A concrete configuration: region host `https://host`, key `abc`,
download root `/data/recordings`. -/
def cfg0 : Config :=
  { region_host := "https://host".toList
    lti_key := "abc".toList
    lti_secret := "secret".toList
    download_path := "/data/recordings".toList }

/-- The report row of the specification's worked scenario. -/
def row_c4 : Row :=
  { SessionOwner := "abc".toList
    RecordingLink := "https://host/recording/XYZ123".toList
    ContextIdentifier := "CS101".toList
    RecordingCreated := "2022-06-01 10:00:00".toList
    SessionName := "Intro Lecture".toList
    RecordingName := "Part 1".toList }

/-- The same row owned by somebody else. -/
def rowOther : Row :=
  { row_c4 with SessionOwner := "xyz".toList }

/-- A successful mint response. -/
def mint200 : MintResponse :=
  { status_code := 200, access_token := "tok123".toList, expires_in := 900 }

/-- A failed mint response. -/
def mint404 : MintResponse :=
  { status_code := 404, access_token := [], expires_in := 0 }

/-- An environment where every request succeeds; the clock reads 1000. -/
def envOk : Env :=
  { now := 1000
    mintResp := mint200
    resolveResp := fun _ => { status_code := 200, url := "https://signed.example/rec".toList }
    downloadStatus := fun _ => 200 }

/-- An environment whose resolver returns HTTP 404; the clock reads
1000. -/
def env404 : Env :=
  { now := 1000
    mintResp := mint200
    resolveResp := fun _ => { status_code := 404, url := [] }
    downloadStatus := fun _ => 200 }

/-- A minted token that expires at instant 5000 (valid at instant
1000). -/
def oauthValid : OAuth :=
  { key := "abc".toList
    secret := "secret".toList
    endpoint := "https://host/collab/api/csa".toList
    token := some "tok123".toList
    token_expires := some 5000 }

/-- A minted token that expired at instant 500 (expired at instant
1000). -/
def oauthExpired : OAuth :=
  { oauthValid with token_expires := some 500 }

/-- The post-normalization part of `slugify`: lowercase, delete characters
outside the kept classes, collapse dash/whitespace runs, strip.  By
definition `slugify value = postPipeline (nfkcModel value)`. -/
def postPipeline (l : List Char) : List Char :=
  pyStrip (collapseRuns (filterKeep (mapLower l)))

/-! ## Sanity checks of the embedding on concrete inputs -/

example : slugify "Intro Lecture".toList = "intro-lecture".toList := by decide
example : slugify "  --Weird__ name!!  ".toList = "weird__-name".toList := by decide
example : replaceRemove "https://host/recording/XYZ123".toList "https://host/recording/".toList
    = "XYZ123".toList := by decide
example : strptimeReport "2022-06-01 10:00:00".toList = some ⟨2022, 6, 1, 10, 0, 0⟩ := by decide
example : strptimeReport "2022-13-01 10:00:00".toList = none := by decide
example : strptimeReport "2022-02-30 10:00:00".toList = none := by decide
example : strptimeReport "2022-6-1 1:2:3".toList = some ⟨2022, 6, 1, 1, 2, 3⟩ := by decide
example : strptimeReport "2022-06-01 10:00:00x".toList = none := by decide
example : define_dir "/data/recordings".toList [] = "datarecordings/_none/".toList := by decide

/-! ## Lemmas: character primitives -/

/-- Value of `Char.ofNat` below the surrogate range. -/
theorem toNat_charOfNat (n : Nat) (h : n < 55296) : (Char.ofNat n).toNat = n := by
  have hv : n.isValidChar := Or.inl h
  simp only [Char.ofNat, dif_pos hv, Char.ofNatAux, Char.toNat]
  simp [UInt32.toNat]

/-- Lowercasing never produces an ASCII uppercase letter. -/
theorem isAsciiUpper_pyLower (d : Char) : isAsciiUpper (pyLower d) = false := by
  unfold pyLower
  by_cases h : 65 ≤ d.toNat ∧ d.toNat ≤ 90
  · rw [if_pos h]
    have ht : (Char.ofNat (d.toNat + 32)).toNat = d.toNat + 32 :=
      toNat_charOfNat _ (by omega)
    simp [isAsciiUpper, ht]
    omega
  · rw [if_neg h]
    simp only [isAsciiUpper, decide_eq_false_iff_not]
    exact h

/-- Lowercasing is idempotent. -/
theorem pyLower_idem (d : Char) : pyLower (pyLower d) = pyLower d := by
  unfold pyLower
  by_cases h : 65 ≤ d.toNat ∧ d.toNat ≤ 90
  · rw [if_pos h]
    have ht : (Char.ofNat (d.toNat + 32)).toNat = d.toNat + 32 :=
      toNat_charOfNat _ (by omega)
    rw [if_neg (by omega)]
  · rw [if_neg h, if_neg h]

/-! ## Lemmas: the collapse scanner -/

/-- Every character of the collapsed list is either a dash or a
non-dash-space character of the input. -/
theorem mem_collapseAux {c : Char} :
    ∀ (b : Bool) (l : List Char), c ∈ collapseAux b l →
      c = '-' ∨ (c ∈ l ∧ isDashSpace c = false) := by
  intro b l
  induction l generalizing b with
  | nil => intro h; simp [collapseAux] at h
  | cons a rest ih =>
    intro h
    by_cases hd : isDashSpace a
    · rw [show collapseAux b (a :: rest)
            = if b then collapseAux true rest else '-' :: collapseAux true rest by
          simp [collapseAux, hd]] at h
      cases b with
      | true =>
        simp only [if_pos] at h
        rcases ih true h with h' | ⟨h1, h2⟩
        · exact Or.inl h'
        · exact Or.inr ⟨List.mem_cons_of_mem a h1, h2⟩
      | false =>
        simp only [Bool.false_eq_true, if_neg] at h
        rcases List.mem_cons.mp h with h' | h'
        · exact Or.inl h'
        · rcases ih true h' with h'' | ⟨h1, h2⟩
          · exact Or.inl h''
          · exact Or.inr ⟨List.mem_cons_of_mem a h1, h2⟩
    · rw [show collapseAux b (a :: rest) = a :: collapseAux false rest by
          simp [collapseAux, hd]] at h
      rcases List.mem_cons.mp h with h' | h'
      · exact Or.inr ⟨h' ▸ List.mem_cons_self a rest, h' ▸ (Bool.not_eq_true _).mp hd⟩
      · rcases ih false h' with h'' | ⟨h1, h2⟩
        · exact Or.inl h''
        · exact Or.inr ⟨List.mem_cons_of_mem a h1, h2⟩

/-- In run mode the next emitted character is never a dash or space. -/
theorem head_collapseAux_true {c : Char} :
    ∀ l : List Char, (collapseAux true l).head? = some c → isDashSpace c = false := by
  intro l
  induction l with
  | nil => intro h; simp [collapseAux] at h
  | cons a rest ih =>
    intro h
    by_cases hd : isDashSpace a
    · rw [show collapseAux true (a :: rest) = collapseAux true rest by
          simp [collapseAux, hd]] at h
      exact ih h
    · rw [show collapseAux true (a :: rest) = a :: collapseAux false rest by
          simp [collapseAux, hd]] at h
      simp only [List.head?_cons, Option.some.injEq] at h
      exact h ▸ (Bool.not_eq_true _).mp hd

/-- Unfolding of `noDoubleDash` on a cons in terms of the head of the
tail. -/
theorem noDoubleDash_cons (a : Char) (l : List Char) :
    noDoubleDash (a :: l)
      = ((match l.head? with
          | some b => !(a = '-' && b = '-')
          | none => true) && noDoubleDash l) := by
  cases l with
  | nil => simp [noDoubleDash]
  | cons b rest => simp [noDoubleDash]

/-- The collapsed list never contains two adjacent dashes. -/
theorem noDoubleDash_collapseAux :
    ∀ (b : Bool) (l : List Char), noDoubleDash (collapseAux b l) = true := by
  intro b l
  induction l generalizing b with
  | nil => simp [collapseAux, noDoubleDash]
  | cons a rest ih =>
    by_cases hd : isDashSpace a
    · cases b with
      | true =>
        rw [show collapseAux true (a :: rest) = collapseAux true rest by
            simp [collapseAux, hd]]
        exact ih true
      | false =>
        rw [show collapseAux false (a :: rest) = '-' :: collapseAux true rest by
            simp [collapseAux, hd]]
        rw [noDoubleDash_cons]
        rw [Bool.and_eq_true]
        refine ⟨?_, ih true⟩
        cases hh : (collapseAux true rest).head? with
        | none => rfl
        | some c =>
          have hc := head_collapseAux_true rest hh
          have : (c = '-') = False := by
            simp only [eq_iff_iff, iff_false]
            intro hc'
            rw [hc'] at hc
            simp [isDashSpace] at hc
          simp [this]
    · rw [show collapseAux b (a :: rest) = a :: collapseAux false rest by
          simp [collapseAux, hd]]
      rw [noDoubleDash_cons]
      rw [Bool.and_eq_true]
      refine ⟨?_, ih false⟩
      have ha : (a = '-') = False := by
        simp only [eq_iff_iff, iff_false]
        intro ha'
        rw [ha'] at hd
        simp [isDashSpace] at hd
      cases (collapseAux false rest).head? with
      | none => rfl
      | some c => simp [ha]

/-! ## Lemmas: stripping -/

/-- Membership survives `dropWhile`. -/
theorem mem_of_mem_dropWhile {p : Char → Bool} {c : Char} :
    ∀ l : List Char, c ∈ l.dropWhile p → c ∈ l := by
  intro l
  induction l with
  | nil => intro h; simp at h
  | cons a rest ih =>
    intro h
    rw [List.dropWhile_cons] at h
    by_cases hp : p a
    · rw [if_pos (by simpa using hp)] at h
      exact List.mem_cons_of_mem a (ih h)
    · rw [if_neg (by simpa using hp)] at h
      exact h

/-- The head surviving `dropWhile p` does not satisfy `p`. -/
theorem head_dropWhile {p : Char → Bool} {c : Char} :
    ∀ l : List Char, (l.dropWhile p).head? = some c → p c = false := by
  intro l
  induction l with
  | nil => intro h; simp at h
  | cons a rest ih =>
    intro h
    rw [List.dropWhile_cons] at h
    by_cases hp : p a
    · rw [if_pos (by simpa using hp)] at h
      exact ih h
    · rw [if_neg (by simpa using hp)] at h
      simp only [List.head?_cons, Option.some.injEq] at h
      exact h ▸ (Bool.not_eq_true _).mp hp

/-- `dropWhile` keeps `noDoubleDash`. -/
theorem noDoubleDash_dropWhile {p : Char → Bool} :
    ∀ l : List Char, noDoubleDash l = true → noDoubleDash (l.dropWhile p) = true := by
  intro l
  induction l with
  | nil => intro _; simpa
  | cons a rest ih =>
    intro h
    rw [noDoubleDash_cons, Bool.and_eq_true] at h
    rw [List.dropWhile_cons]
    by_cases hp : p a
    · rw [if_pos (by simpa using hp)]
      exact ih h.2
    · rw [if_neg (by simpa using hp)]
      rw [noDoubleDash_cons, Bool.and_eq_true]
      exact h

/-- `dropWhile p` is the identity when the head does not satisfy `p`. -/
theorem dropWhile_id_of_head {p : Char → Bool} :
    ∀ l : List Char, (∀ c, l.head? = some c → p c = false) → l.dropWhile p = l := by
  intro l h
  cases l with
  | nil => rfl
  | cons a rest =>
    rw [List.dropWhile_cons, if_neg]
    simp [h a rfl]

/-- Membership survives `dropTrailing`. -/
theorem mem_of_mem_dropTrailing {p : Char → Bool} {c : Char} :
    ∀ l : List Char, c ∈ dropTrailing p l → c ∈ l := by
  intro l
  induction l with
  | nil => intro h; simp [dropTrailing] at h
  | cons a rest ih =>
    intro h
    simp only [dropTrailing] at h
    by_cases he : (dropTrailing p rest).isEmpty
    · rw [if_pos he] at h
      by_cases hp : p a
      · rw [if_pos hp] at h
        simp at h
      · rw [if_neg hp] at h
        simp only [List.mem_singleton] at h
        exact h ▸ List.mem_cons_self a rest
    · rw [if_neg he] at h
      rcases List.mem_cons.mp h with h' | h'
      · exact h' ▸ List.mem_cons_self a rest
      · exact List.mem_cons_of_mem a (ih h')

/-- The head of `dropTrailing p l`, when present, is the head of `l`. -/
theorem head_dropTrailing {p : Char → Bool} {c : Char} :
    ∀ l : List Char, (dropTrailing p l).head? = some c → l.head? = some c := by
  intro l
  induction l with
  | nil => intro h; simp [dropTrailing] at h
  | cons a rest _ =>
    intro h
    simp only [dropTrailing] at h
    by_cases he : (dropTrailing p rest).isEmpty
    · rw [if_pos he] at h
      by_cases hp : p a
      · rw [if_pos hp] at h
        simp at h
      · rw [if_neg hp] at h
        simpa using h
    · rw [if_neg he] at h
      simpa using h

/-- The last element surviving `dropTrailing p` does not satisfy `p`. -/
theorem getLast_dropTrailing {p : Char → Bool} {c : Char} :
    ∀ l : List Char, (dropTrailing p l).getLast? = some c → p c = false := by
  intro l
  induction l with
  | nil => intro h; simp [dropTrailing] at h
  | cons a rest ih =>
    intro h
    simp only [dropTrailing] at h
    by_cases he : (dropTrailing p rest).isEmpty
    · rw [if_pos he] at h
      by_cases hp : p a
      · rw [if_pos hp] at h
        simp at h
      · rw [if_neg hp] at h
        simp only [List.getLast?_singleton, Option.some.injEq] at h
        exact h ▸ (Bool.not_eq_true _).mp hp
    · rw [if_neg he] at h
      rcases hr : dropTrailing p rest with _ | ⟨x, xs⟩
      · rw [hr] at he
        simp at he
      · rw [hr] at h
        rw [List.getLast?_cons_cons] at h
        exact ih (hr ▸ h)

/-- `dropTrailing` keeps `noDoubleDash`. -/
theorem noDoubleDash_dropTrailing {p : Char → Bool} :
    ∀ l : List Char, noDoubleDash l = true → noDoubleDash (dropTrailing p l) = true := by
  intro l
  induction l with
  | nil => intro _; simpa [dropTrailing]
  | cons a rest ih =>
    intro h
    rw [noDoubleDash_cons, Bool.and_eq_true] at h
    simp only [dropTrailing]
    by_cases he : (dropTrailing p rest).isEmpty
    · rw [if_pos he]
      by_cases hp : p a
      · simp [if_pos hp, noDoubleDash]
      · simp [if_neg hp, noDoubleDash]
    · rw [if_neg he]
      rw [noDoubleDash_cons, Bool.and_eq_true]
      refine ⟨?_, ih h.2⟩
      cases hh : (dropTrailing p rest).head? with
      | none =>
        rcases hr : dropTrailing p rest with _ | ⟨x, xs⟩
        · rw [hr] at he
        · rw [hr] at hh
      | some x =>
        have hx : rest.head? = some x := head_dropTrailing rest hh
        rw [hx] at h
        exact h.1

/-- `dropTrailing p` is the identity when the last element does not
satisfy `p`. -/
theorem dropTrailing_id_of_getLast {p : Char → Bool} :
    ∀ l : List Char, (∀ c, l.getLast? = some c → p c = false) → dropTrailing p l = l := by
  intro l
  induction l with
  | nil => intro _; rfl
  | cons a rest ih =>
    intro h
    cases rest with
    | nil =>
      have ha : p a = false := h a (by simp)
      simp [dropTrailing, ha]
    | cons x xs =>
      have hrest : dropTrailing p (x :: xs) = x :: xs := by
        refine ih ?_
        intro c hc
        refine h c ?_
        rw [List.getLast?_cons_cons]
        exact hc
      show (if (dropTrailing p (x :: xs)).isEmpty then (if p a then [] else [a])
            else a :: dropTrailing p (x :: xs)) = a :: x :: xs
      rw [hrest]
      simp

/-! ## Lemmas: slugify -/

/-- Characterization of the members of a slug: each is a dash or a kept,
lowered, non-dash-space character. -/
theorem mem_slugify {c : Char} {s : List Char} (h : c ∈ slugify s) :
    c = '-' ∨ ((∃ d, c = pyLower d) ∧ keepChar c = true ∧ isDashSpace c = false) := by
  unfold slugify pyStrip at h
  have h1 := mem_of_mem_dropWhile _ (mem_of_mem_dropTrailing _ h)
  rcases mem_collapseAux false _ h1 with h2 | ⟨h2, hds⟩
  · exact Or.inl h2
  · unfold filterKeep at h2
    rw [List.mem_filter] at h2
    unfold mapLower at h2
    rcases List.mem_map.mp h2.1 with ⟨d, _, hd⟩
    exact Or.inr ⟨⟨d, hd.symm⟩, h2.2, hds⟩

/-- The slug never contains two adjacent dashes. -/
theorem noDoubleDash_slugify (s : List Char) : noDoubleDash (slugify s) = true := by
  unfold slugify pyStrip
  exact noDoubleDash_dropTrailing _
    (noDoubleDash_dropWhile _ (noDoubleDash_collapseAux false _))

/-- The slug never starts with a dash or underscore. -/
theorem headOk_slugify (s : List Char) : headOk (slugify s) = true := by
  unfold headOk
  cases hs : slugify s with
  | nil => rfl
  | cons a rest =>
    have hh : (dropTrailing isStripChar
        ((collapseRuns (filterKeep (mapLower (nfkcModel s)))).dropWhile isStripChar)).head?
          = some a := by
      show (slugify s).head? = some a
      rw [hs]
      rfl
    have h2 := head_dropWhile _ (head_dropTrailing _ hh)
    simp [h2]

/-- The slug never ends with a dash or underscore. -/
theorem lastOk_slugify (s : List Char) : lastOk (slugify s) = true := by
  unfold lastOk
  cases hh : (slugify s).getLast? with
  | none => rfl
  | some c =>
    have : isStripChar c = false := getLast_dropTrailing _ hh
    simp [this]

/-- Every character of a slug is an allowed output character: a word
character or dash, not whitespace, not ASCII uppercase. -/
theorem mem_slugify_charset {c : Char} {s : List Char} (h : c ∈ slugify s) :
    (pyIsWordChar c || c = '-') = true ∧ pyIsSpace c = false ∧ isAsciiUpper c = false := by
  rcases mem_slugify h with rfl | ⟨⟨d, rfl⟩, hk, hds⟩
  · refine ⟨by decide, by decide, by decide⟩
  · have hsp : pyIsSpace (pyLower d) = false := by
      rcases Bool.or_eq_false_iff.mp hds with ⟨_, h2⟩
      exact h2
    have hnd : (decide (pyLower d = '-')) = false := by
      rcases Bool.or_eq_false_iff.mp hds with ⟨h1, _⟩
      exact h1
    refine ⟨?_, hsp, isAsciiUpper_pyLower d⟩
    unfold keepChar at hk
    rcases Bool.or_eq_true_iff.mp hk with hk' | hk'
    · rcases Bool.or_eq_true_iff.mp hk' with hk'' | hk''
      · simp [hk'']
      · rw [hsp] at hk''
        cases hk''
    · rw [hnd] at hk'
      cases hk'

/-- The collapse scanner is the identity on lists without whitespace and
without adjacent dashes (paired statement for both scanner modes). -/
theorem collapseAux_id :
    ∀ l : List Char, (∀ c ∈ l, pyIsSpace c = false) → noDoubleDash l = true →
      collapseAux false l = l ∧ (l.head? ≠ some '-' → collapseAux true l = l) := by
  intro l
  induction l with
  | nil => intro _ _; exact ⟨rfl, fun _ => rfl⟩
  | cons a rest ih =>
    intro hsp hdd
    have hsp' : ∀ c ∈ rest, pyIsSpace c = false :=
      fun c hc => hsp c (List.mem_cons_of_mem a hc)
    have hdd' : noDoubleDash rest = true := by
      rw [noDoubleDash_cons, Bool.and_eq_true] at hdd
      exact hdd.2
    obtain ⟨ih1, ih2⟩ := ih hsp' hdd'
    have hspa : pyIsSpace a = false := hsp a (List.mem_cons_self a rest)
    by_cases hda : a = '-'
    · have hds : isDashSpace a = true := by simp [isDashSpace, hda]
      have hrest : rest.head? ≠ some '-' := by
        intro hr
        rw [noDoubleDash_cons, hr, Bool.and_eq_true] at hdd
        rw [hda] at hdd
        simp at hdd
      constructor
      · rw [show collapseAux false (a :: rest) = '-' :: collapseAux true rest by
            simp [collapseAux, hds]]
        rw [ih2 hrest, hda]
      · intro hcontra
        exact absurd (by simp [hda]) hcontra
    · have hds : isDashSpace a = false := by simp [isDashSpace, hda, hspa]
      constructor
      · rw [show collapseAux false (a :: rest) = a :: collapseAux false rest by
            simp [collapseAux, hds]]
        rw [ih1]
      · intro _
        rw [show collapseAux true (a :: rest) = a :: collapseAux false rest by
            simp [collapseAux, hds]]
        rw [ih1]

/-- The post-normalization pipeline fixes any list whose characters are
lower-fixed kept non-space characters, with no adjacent dashes and no
stripped character at either end. -/
theorem postPipeline_fix (l : List Char)
    (hc : ∀ c ∈ l, pyLower c = c ∧ keepChar c = true ∧ pyIsSpace c = false)
    (hdd : noDoubleDash l = true) (hh : headOk l = true) (hl : lastOk l = true) :
    postPipeline l = l := by
  unfold postPipeline
  have hmap : mapLower l = l := by
    unfold mapLower
    rw [List.map_congr_left (fun c hc' => (hc c hc').1)]
    exact List.map_id l
  rw [hmap]
  have hfil : filterKeep l = l := by
    unfold filterKeep
    rw [List.filter_eq_self]
    intro c hc'
    exact (hc c hc').2.1
  rw [hfil]
  have hcol : collapseRuns l = l := by
    unfold collapseRuns
    exact (collapseAux_id l (fun c hc' => (hc c hc').2.2) hdd).1
  rw [hcol]
  unfold pyStrip
  have hdw : l.dropWhile isStripChar = l := by
    refine dropWhile_id_of_head l ?_
    intro c hc'
    unfold headOk at hh
    cases l with
    | nil => simp at hc'
    | cons a rest =>
      simp only [List.head?_cons, Option.some.injEq] at hc'
      subst hc'
      simpa using hh
  rw [hdw]
  refine dropTrailing_id_of_getLast l ?_
  intro c hc'
  unfold lastOk at hl
  rw [hc'] at hl
  simpa using hl

/-- The characters of a slug satisfy the fixpoint conditions of
`postPipeline_fix`. -/
theorem mem_slugify_fix {c : Char} {s : List Char} (h : c ∈ slugify s) :
    pyLower c = c ∧ keepChar c = true ∧ pyIsSpace c = false := by
  rcases mem_slugify h with rfl | ⟨⟨d, rfl⟩, hk, hds⟩
  · refine ⟨by decide, by decide, by decide⟩
  · have hsp : pyIsSpace (pyLower d) = false := (Bool.or_eq_false_iff.mp hds).2
    exact ⟨pyLower_idem d, hk, hsp⟩

/-- A slug is a fixpoint of the post-normalization pipeline. -/
theorem postPipeline_slugify (s : List Char) : postPipeline (slugify s) = slugify s :=
  postPipeline_fix (slugify s) (fun _ hc => mem_slugify_fix hc)
    (noDoubleDash_slugify s) (headOk_slugify s) (lastOk_slugify s)

/-! ## Claim theorems -/

/-- Unfolding of `filename_from_report` on a successfully parsed date. -/
theorem filename_from_report_eq (r : Row) (dt : PyDateTime)
    (hdt : strptimeReport r.RecordingCreated = some dt) :
    filename_from_report r = .ok
      ((fmtCreated dt ++ ['_'] ++ slugify r.SessionName ++ ['_'] ++ slugify r.RecordingName).take 200
        ++ ".mp4".toList) := by
  unfold filename_from_report
  rw [hdt]

/-- C7: every filename the builder returns consists of a stem of at most
200 characters followed by the extension `.mp4` — regardless of how long
`SessionName` and `RecordingName` are. -/
theorem filename_from_report_cap (r : Row) (fn : List Char)
    (h : filename_from_report r = .ok fn) :
    4 ≤ fn.length ∧ fn.length ≤ 204 ∧ fn.drop (fn.length - 4) = ".mp4".toList := by
  cases hdt : strptimeReport r.RecordingCreated with
  | none =>
    unfold filename_from_report at h
    rw [hdt] at h
    cases h
  | some dt =>
    rw [filename_from_report_eq r dt hdt] at h
    have hfn := Except.ok.inj h
    subst hfn
    set stem :=
      (fmtCreated dt ++ ['_'] ++ slugify r.SessionName ++ ['_'] ++ slugify r.RecordingName).take 200
      with hstem
    have h4 : (".mp4".toList).length = 4 := rfl
    have hlen : (stem ++ ".mp4".toList).length = stem.length + 4 := by
      rw [List.length_append, h4]
    have hcap : stem.length ≤ 200 := by
      rw [hstem, List.length_take]
      omega
    refine ⟨by omega, by omega, ?_⟩
    rw [hlen]
    have h4 : stem.length + 4 - 4 = stem.length := by omega
    rw [h4, List.drop_left]

/-- Witness for C7 at the worked scenario row. -/
theorem filename_from_report_cap_witness :
    filename_from_report row_c4 = .ok "20220601_1000_intro-lecture_part-1.mp4".toList ∧
    (4 ≤ ("20220601_1000_intro-lecture_part-1.mp4".toList).length ∧
     ("20220601_1000_intro-lecture_part-1.mp4".toList).length ≤ 204 ∧
     ("20220601_1000_intro-lecture_part-1.mp4".toList).drop
        (("20220601_1000_intro-lecture_part-1.mp4".toList).length - 4) = ".mp4".toList) :=
  ⟨rfl, filename_from_report_cap row_c4 "20220601_1000_intro-lecture_part-1.mp4".toList rfl⟩

/-- C8 (amended): an empty `ContextIdentifier` routes to the fixed
`_none` subdirectory under the *slugified* root, and a non-empty one to
the subdirectory of the slugified root named by its slugified form. -/
theorem define_dir_routing (root folder : List Char) :
    define_dir root [] = slugify root ++ "/_none/".toList ∧
    (folder ≠ [] → define_dir root folder = slugify root ++ "/".toList ++ slugify folder) := by
  constructor
  · unfold define_dir
    rw [if_pos rfl]
  · intro h
    unfold define_dir
    rw [if_neg h]

/-- Witness for C8 at a concrete root and folder. -/
theorem define_dir_routing_witness :
    "CS101".toList ≠ ([] : List Char) ∧
    define_dir "/data/recordings".toList [] = slugify "/data/recordings".toList ++ "/_none/".toList ∧
    define_dir "/data/recordings".toList "CS101".toList
      = slugify "/data/recordings".toList ++ "/".toList ++ slugify "CS101".toList :=
  ⟨by decide, (define_dir_routing "/data/recordings".toList "CS101".toList).1,
   (define_dir_routing "/data/recordings".toList "CS101".toList).2 (by decide)⟩

/-- C1 (amended): on a non-200 mint response `get_token` does not abort;
it returns the `oAuth` object without `token` and `token_expires`
entries, and the next expiry check on that object fails with a
`KeyError`. -/
theorem get_token_mint_failure (cfg : Config) (now now2 : Int) (resp : MintResponse)
    (h : resp.status_code ≠ 200) :
    (get_token cfg now resp).token = none ∧
    (get_token cfg now resp).token_expires = none ∧
    is_token_exp (get_token cfg now resp) now2 = .error .keyError := by
  unfold get_token
  rw [if_neg h]
  exact ⟨rfl, rfl, rfl⟩

/-- Witness for the amended C1 at a concrete 404 mint response. -/
theorem get_token_mint_failure_witness :
    mint404.status_code ≠ 200 ∧
    ((get_token cfg0 0 mint404).token = none ∧
     (get_token cfg0 0 mint404).token_expires = none ∧
     is_token_exp (get_token cfg0 0 mint404) 0 = .error .keyError) :=
  ⟨by decide, get_token_mint_failure cfg0 0 0 mint404 (by decide)⟩

/-- Counterexample to C1 as stated: with a 404 mint response `get_token`
does return — and the returned object lacks a usable bearer token. -/
theorem get_token_returns_tokenless_object :
    mint404.status_code ≠ 200 ∧ (get_token cfg0 0 mint404).token = none :=
  ⟨by decide, rfl⟩

/-- C5 (amended): `is_token_exp` returns true exactly when the stored
expiry is *strictly* before the current instant: false at equality, true
one second past, false one second in the future. -/
theorem is_token_exp_strict (oAuth : OAuth) (e now : Int)
    (h : oAuth.token_expires = some e) :
    (is_token_exp oAuth now = .ok true ↔ e < now) ∧
    is_token_exp oAuth (e + 1) = .ok true ∧
    is_token_exp oAuth (e - 1) = .ok false ∧
    is_token_exp oAuth e = .ok false := by
  unfold is_token_exp
  rw [h]
  dsimp only
  refine ⟨?_, ?_, ?_, ?_⟩
  · constructor
    · intro hok
      exact of_decide_eq_true (Except.ok.inj hok)
    · intro hlt
      rw [decide_eq_true hlt]
  · rw [decide_eq_true (by omega)]
  · rw [decide_eq_false (by omega)]
  · rw [decide_eq_false (by omega)]

/-- Witness for the amended C5 at a token expiring at instant 5000. -/
theorem is_token_exp_strict_witness :
    oauthValid.token_expires = some 5000 ∧
    ((is_token_exp oauthValid 1000 = .ok true ↔ (5000 : Int) < 1000) ∧
     is_token_exp oauthValid (5000 + 1) = .ok true ∧
     is_token_exp oauthValid (5000 - 1) = .ok false ∧
     is_token_exp oauthValid 5000 = .ok false) :=
  ⟨rfl, is_token_exp_strict oauthValid 5000 1000 rfl⟩

/-- Counterexample to C5 as stated: when the stored expiry equals the
current instant the check returns false, not true. -/
theorem is_token_exp_at_equality :
    oauthValid.token_expires = some 5000 ∧ is_token_exp oauthValid 5000 = .ok false :=
  ⟨rfl, rfl⟩

/-- Counterexample to C4 as stated: `define_dir` slugifies the configured
root (here `/data/recordings` becomes `datarecordings`) and appends no
trailing slash, so the directory is not `DownloadPath/cs101/`. -/
theorem define_dir_alters_root :
    define_dir "/data/recordings".toList "CS101".toList = "datarecordings/cs101".toList ∧
    "datarecordings/cs101".toList ≠ "/data/recordings/cs101/".toList := by
  exact ⟨by decide, by decide⟩

/-- C4 (amended): for the worked scenario row the filename is
`20220601_1000_intro-lecture_part-1.mp4` and, for every configured root,
the download directory is the slugified root followed by `/cs101` (no
trailing slash); with the full environment the row is downloaded to that
directory. -/
theorem scenario_row_filename_dir (root : List Char) :
    filename_from_report row_c4 = .ok "20220601_1000_intro-lecture_part-1.mp4".toList ∧
    define_dir root row_c4.ContextIdentifier = slugify root ++ "/cs101".toList ∧
    process_row cfg0 envOk oauthValid row_c4 =
      ([Effect.resolveGet "XYZ123".toList,
        Effect.downloadGet "https://signed.example/rec".toList,
        Effect.downloadGetStream "https://signed.example/rec".toList,
        Effect.writeFile "datarecordings/cs101/20220601_1000_intro-lecture_part-1.mp4".toList],
       oauthValid, .downloaded) := by
  refine ⟨rfl, ?_, rfl⟩
  show define_dir root "CS101".toList = slugify root ++ "/cs101".toList
  calc define_dir root "CS101".toList
      = slugify root ++ "/".toList ++ slugify "CS101".toList := by
        unfold define_dir
        rw [if_neg (by decide)]
    _ = slugify root ++ ("/".toList ++ "cs101".toList) := by
        rw [List.append_assoc, show slugify "CS101".toList = "cs101".toList from by decide]
    _ = slugify root ++ "/cs101".toList := congrArg (fun t => slugify root ++ t) (by decide)

/-- C3: `download_recording` always issues *two* GETs against the signed
URL — first the bare line-138 GET, which reads the whole body into memory
and discards it, then the streaming GET — and on success writes the file;
evaluated both generally and at a concrete input. -/
theorem download_recording_two_gets :
    (∀ (env : Env) (url fname dir : List Char),
       (download_recording env url fname dir).1.take 2
         = [Effect.downloadGet url, Effect.downloadGetStream url]) ∧
    download_recording envOk "https://signed.example/rec".toList
        "20220601_1000_intro-lecture_part-1.mp4".toList "datarecordings/cs101".toList
      = ([Effect.downloadGet "https://signed.example/rec".toList,
          Effect.downloadGetStream "https://signed.example/rec".toList,
          Effect.writeFile
            "datarecordings/cs101/20220601_1000_intro-lecture_part-1.mp4".toList],
         .ok ()) := by
  constructor
  · intro env url fname dir
    unfold download_recording
    by_cases h : 400 ≤ env.downloadStatus url
    · rw [if_pos h]
      rfl
    · rw [if_neg h]
      rfl
  · rfl

/-- C6: for every input string the slug is lowercase (contains no ASCII
uppercase letter), contains only word characters and dashes, never two
adjacent dashes, no whitespace, and neither starts nor ends with a dash
or underscore. -/
theorem slugify_output_charset (s : List Char) :
    ((slugify s).all (fun c => (pyIsWordChar c || c = '-') && !pyIsSpace c && !isAsciiUpper c)
      && noDoubleDash (slugify s) && headOk (slugify s) && lastOk (slugify s)) = true := by
  have hall : (slugify s).all
      (fun c => (pyIsWordChar c || c = '-') && !pyIsSpace c && !isAsciiUpper c) = true := by
    rw [List.all_eq_true]
    intro c hc
    obtain ⟨h1, h2, h3⟩ := mem_slugify_charset hc
    simp [h1, h2, h3]
  rw [hall, noDoubleDash_slugify, headOk_slugify, lastOk_slugify]
  rfl

/-- C10 (amended): `slugify` is idempotent on every input whose slug is
fixed by NFKC normalization — in particular on all ASCII inputs.  (The
general statement fails: deleting a character can bring two Hangul jamo
together, which NFKC then composes on the second pass.) -/
theorem slugify_idempotent_of_normalized (s : List Char)
    (h : nfkcModel (slugify s) = slugify s) :
    slugify (slugify s) = slugify s := by
  show postPipeline (nfkcModel (slugify s)) = slugify s
  rw [h]
  exact postPipeline_slugify s

/-- Witness for the amended C10 at a concrete ASCII input. -/
theorem slugify_idempotent_witness :
    nfkcModel (slugify "Intro  Lecture!!".toList) = slugify "Intro  Lecture!!".toList ∧
    slugify (slugify "Intro  Lecture!!".toList) = slugify "Intro  Lecture!!".toList :=
  ⟨by decide, slugify_idempotent_of_normalized "Intro  Lecture!!".toList (by decide)⟩

/-- Counterexample to C10 as stated: for the input `ᄀ.ᅡ` the first pass
yields the two jamo `가` (the dot between them is deleted), and the
second pass NFKC-composes them into the single syllable `가`. -/
theorem slugify_not_idempotent :
    slugify (slugify ['ᄀ', '.', 'ᅡ']) ≠ slugify ['ᄀ', '.', 'ᅡ'] := by decide

/-- C2 (amended): for a row whose `SessionOwner` differs from the
configured key, no resolver call, no download and no write happen: when
the token is fresh the iteration has no effect at all and changes no
state; when the token is expired the only effect is the token-refresh
POST (which also replaces the token). -/
theorem skipped_owner_no_download (cfg : Config) (env : Env) (oAuth : OAuth) (row : Row)
    (h : row.SessionOwner ≠ cfg.lti_key) :
    (is_token_exp oAuth env.now = .ok false →
       process_row cfg env oAuth row = ([], oAuth, .skippedOwner)) ∧
    (is_token_exp oAuth env.now = .ok true →
       process_row cfg env oAuth row
         = ([Effect.mintPost], get_token cfg env.now env.mintResp, .skippedOwner)) := by
  constructor
  · intro hf
    unfold process_row
    rw [hf]
    simp [h]
  · intro ht
    unfold process_row
    rw [ht]
    simp [h]

/-- Witness for the amended C2: concrete mismatched-owner rows with a
fresh and with an expired token. -/
theorem skipped_owner_no_download_witness :
    rowOther.SessionOwner ≠ cfg0.lti_key ∧
    process_row cfg0 envOk oauthValid rowOther = ([], oauthValid, .skippedOwner) ∧
    process_row cfg0 envOk oauthExpired rowOther
      = ([Effect.mintPost], get_token cfg0 envOk.now envOk.mintResp, .skippedOwner) :=
  ⟨by decide,
   (skipped_owner_no_download cfg0 envOk oauthValid rowOther (by decide)).1 rfl,
   (skipped_owner_no_download cfg0 envOk oauthExpired rowOther (by decide)).2 rfl⟩

/-- Counterexample to C2 as stated: a mismatched-owner row reached with
an expired token does trigger an HTTP request (the token-refresh POST)
and does change state (the token object is replaced). -/
theorem skipped_row_still_mints :
    rowOther.SessionOwner ≠ cfg0.lti_key ∧
    (process_row cfg0 envOk oauthExpired rowOther).1 = [Effect.mintPost] ∧
    (process_row cfg0 envOk oauthExpired rowOther).2.1 ≠ oauthExpired :=
  ⟨by decide, rfl, by decide⟩

/-- C9: when the resolver returns a non-200 status for a row (owned by
the configured key, token fresh), the row is skipped with only the
resolver GET issued — no write — and the loop continues with the
remaining rows. -/
theorem resolver_failure_skips (cfg : Config) (env : Env) (oAuth : OAuth) (row : Row)
    (tok : List Char) (e : Int) (rest : List Row)
    (htok : oAuth.token = some tok) (hexp : oAuth.token_expires = some e)
    (hfresh : ¬ e < env.now) (howner : row.SessionOwner = cfg.lti_key)
    (hstatus : (env.resolveResp (pyStripWs (replaceRemove row.RecordingLink
        (cfg.region_host ++ "/recording/".toList)))).status_code ≠ 200) :
    process_row cfg env oAuth row
      = ([Effect.resolveGet (pyStripWs (replaceRemove row.RecordingLink
            (cfg.region_host ++ "/recording/".toList)))], oAuth, .skippedResolve) ∧
    main_loop cfg env oAuth (row :: rest)
      = (Effect.resolveGet (pyStripWs (replaceRemove row.RecordingLink
            (cfg.region_host ++ "/recording/".toList)))
           :: (main_loop cfg env oAuth rest).1,
         .skippedResolve :: (main_loop cfg env oAuth rest).2) := by
  have hte : is_token_exp oAuth env.now = .ok false := by
    unfold is_token_exp
    rw [hexp]
    dsimp only
    rw [decide_eq_false hfresh]
  have hne : ¬ (row.SessionOwner ≠ cfg.lti_key) := fun hne => hne howner
  have hurl : get_download_url (pyStripWs (replaceRemove row.RecordingLink
        (cfg.region_host ++ "/recording/".toList))) oAuth env
      = ([Effect.resolveGet (pyStripWs (replaceRemove row.RecordingLink
            (cfg.region_host ++ "/recording/".toList)))], .ok "FAILED".toList) := by
    unfold get_download_url
    rw [htok]
    dsimp only
    rw [if_neg hstatus]
  have hp : process_row cfg env oAuth row
      = ([Effect.resolveGet (pyStripWs (replaceRemove row.RecordingLink
            (cfg.region_host ++ "/recording/".toList)))], oAuth, .skippedResolve) := by
    unfold process_row
    rw [hte]
    simp only [Bool.false_eq_true, if_false, if_neg hne]
    rw [hurl]
    dsimp only
    rw [if_pos rfl]
    rw [List.nil_append]
  refine ⟨hp, ?_⟩
  simp only [main_loop, hp]
  rcases hml : main_loop cfg env oAuth rest with ⟨effs2, outs2⟩
  simp [hml]

/-- Witness for C9: a concrete 404 resolver environment; the row is
skipped with only the resolver GET issued, and the loop goes on with the
rest of the batch. -/
theorem resolver_failure_skips_witness :
    process_row cfg0 env404 oauthValid row_c4
      = ([Effect.resolveGet "XYZ123".toList], oauthValid, .skippedResolve) ∧
    main_loop cfg0 env404 oauthValid [row_c4, row_c4]
      = (Effect.resolveGet "XYZ123".toList :: (main_loop cfg0 env404 oauthValid [row_c4]).1,
         .skippedResolve :: (main_loop cfg0 env404 oauthValid [row_c4]).2) :=
  resolver_failure_skips cfg0 env404 oauthValid row_c4 "tok123".toList 5000 [row_c4]
    rfl rfl (by decide) rfl (by decide)

/-- Counterexample to C8 as stated: the `_none` directory is not a
subdirectory of the given output root — the root is slugified first, so
for the root `/data/recordings` the computed path does not even start
with the root. -/
theorem define_dir_none_not_under_root :
    define_dir "/data/recordings".toList [] = "datarecordings/_none/".toList ∧
    listStartsWith "/data/recordings".toList "datarecordings/_none/".toList = false := by
  exact ⟨by decide, by decide⟩
